import Mathlib

/-!
Verification development for the DungeonBand tactical combat core
(steerpike/dungeonband).

Shallow embedding of:
  * the effect resolver (internal/combat/resolver.go),
  * party-member / enemy combatant state and mutators (entity package),
  * status-effect ticking (Member.TickStatusEffects / Enemy.TickStatusEffects),
  * formation placement (findFormationPositions / findLineFormation),
  * the mode state machine and combat turn engine (game package:
    transitionState, enterCombat, exitCombat, handleCombatAbilitySelection,
    executeCombatTurn, advanceToNextPartyMember, executeEnemyTurns,
    selectEnemyAbility, selectEnemyTarget).

Go `int` is modelled as `Int`; Go pointers to combatants become list
positions with explicit write-back; a call with aliased user/target
pointers is modelled by `ResolveSelf`.  Randomness (`rng.Perm`) is an
explicit permutation argument, pure passability queries
(`dungeon.IsPassable`) an explicit predicate.
-/

namespace DungeonBand

/-- Go `gamedata.EffectType` (a string enum); `unknown` stands for any
string other than the four known constants (the resolver's `default`
branch). -/
inductive EffectType
  | damage
  | heal
  | buff
  | debuff
  | unknown
deriving DecidableEq, Repr

/-- Go `gamedata.TargetType` (string enum), `unknown` for any other string. -/
inductive TargetType
  | self
  | singleEnemy
  | allEnemies
  | singleAlly
  | allAllies
  | unknown
deriving DecidableEq, Repr

/-- Go `gamedata.DamageType` (string enum); `unknown` is any other string
(handled by the `default` case of the damage switches). -/
inductive DamageType
  | physical
  | magical
  | trueDamage
  | unknown
deriving DecidableEq, Repr

/-- Go `gamedata.StatusEffectType`. `StatusNone` is the empty string, so
the Go test `s != "" && s != StatusNone` is simply `s ≠ none` here. -/
inductive StatusEffectType
  | none
  | poison
  | regen
  | defenseUp
  | defenseDown
  | attackUp
  | attackDown
deriving DecidableEq, Repr

/-- Go `gamedata.AbilityDef` (the fields the combat core reads). -/
structure AbilityDef where
  id : String
  name : String
  effectType : EffectType
  targetType : TargetType
  damageType : DamageType
  basePower : Int
  mpCost : Int
  statusEffect : StatusEffectType
  statusDuration : Int
  statusPower : Int
deriving DecidableEq, Repr

/-- Go `AbilityDef.IsOffensive`. -/
def AbilityDef.IsOffensive (a : AbilityDef) : Bool :=
  a.targetType = TargetType.singleEnemy || a.targetType = TargetType.allEnemies

/-- Go `combat.StatusEffect`. -/
structure StatusEffect where
  type : StatusEffectType
  remainingTurns : Int
  power : Int
deriving DecidableEq, Repr

/-- Go `combat.StatusTick`. -/
structure StatusTick where
  type : StatusEffectType
  amount : Int
  ended : Bool
deriving DecidableEq, Repr

/-- The state behind the Go `combat.Combatant` interface.  `entity.Member`,
`entity.Enemy` and the test mock implement every mutator below with
literally identical bodies, so one record covers all implementations. -/
structure Combatant where
  name : String
  hp : Int
  maxHp : Int
  mp : Int
  maxMp : Int
  attack : Int
  defense : Int
  magic : Int
  abilityIds : List String
  statusEffects : List StatusEffect
deriving DecidableEq, Repr

/-- Go `IsAlive`: `HP > 0`. -/
def Combatant.isAlive (c : Combatant) : Bool := c.hp > 0

/-- Go `TakeDamage` (identical in Member, Enemy and the mock): returns the
mutated combatant and the actual damage taken. -/
def Combatant.takeDamage (c : Combatant) (amount : Int) : Combatant × Int :=
  if amount ≤ 0 then (c, 0)
  else
    let actual := if amount > c.hp then c.hp else amount
    ({ c with hp := c.hp - actual }, actual)

/-- Go `Heal`: returns the mutated combatant and the actual amount healed. -/
def Combatant.heal (c : Combatant) (amount : Int) : Combatant × Int :=
  if amount ≤ 0 then (c, 0)
  else
    let actual := if c.hp + amount > c.maxHp then c.maxHp - c.hp else amount
    ({ c with hp := c.hp + actual }, actual)

/-- Go `SpendMP`: returns the mutated combatant and whether the spend
succeeded. -/
def Combatant.spendMP (c : Combatant) (amount : Int) : Combatant × Bool :=
  if c.mp < amount then (c, false)
  else ({ c with mp := c.mp - amount }, true)

/-- The list update performed by Go `AddStatusEffect`: replace the first
effect of the same type, else append. -/
def addStatusEffectList (effects : List StatusEffect) (e : StatusEffect) :
    List StatusEffect :=
  match effects with
  | [] => [e]
  | x :: xs =>
    if x.type = e.type then e :: xs else x :: addStatusEffectList xs e

/-- Go `AddStatusEffect`. -/
def Combatant.addStatusEffect (c : Combatant) (e : StatusEffect) : Combatant :=
  { c with statusEffects := addStatusEffectList c.statusEffects e }

/-- The loop body of Go `TickStatusEffects`: walks the pending effects,
applying poison/regen to the threaded combatant, decrementing the
per-iteration copy of each effect, and collecting the surviving effects
and the emitted ticks in order. -/
def tickLoop (c : Combatant) (pending : List StatusEffect) :
    Combatant × List StatusEffect × List StatusTick :=
  match pending with
  | [] => (c, [], [])
  | effect :: rest =>
    let step : Combatant × Int :=
      match effect.type with
      | StatusEffectType.poison => c.takeDamage effect.power
      | StatusEffectType.regen => c.heal effect.power
      | _ => (c, 0)
    let newTurns := effect.remainingTurns - 1
    let ended := decide (newTurns ≤ 0)
    let next := tickLoop step.1 rest
    let remaining :=
      if ended then next.2.1
      else { effect with remainingTurns := newTurns } :: next.2.1
    (next.1, remaining, ⟨effect.type, step.2, ended⟩ :: next.2.2)

/-- Go `TickStatusEffects` (Member/Enemy/mock, identical bodies): processes
every active effect once, then stores the surviving effects. -/
def Combatant.tickStatusEffects (c : Combatant) : Combatant × List StatusTick :=
  let r := tickLoop c c.statusEffects
  ({ r.1 with statusEffects := r.2.1 }, r.2.2)

/-- Go `combat.EffectResult`. -/
structure EffectResult where
  success : Bool
  damage : Int
  healing : Int
  statusAdded : StatusEffectType
  message : String
deriving DecidableEq, Repr

/-- The damage switch inside Go `resolveDamage` (resolver.go lines
119-141): the requested damage before it is applied to the target. -/
def damageFormula (a : AbilityDef) (user target : Combatant) : Int :=
  match a.damageType with
  | DamageType.physical =>
    let d := a.basePower + user.attack - target.defense
    if d < 1 then 1 else d
  | DamageType.magical =>
    let d := a.basePower + user.magic
    if d < 1 then 1 else d
  | DamageType.trueDamage => a.basePower
  | DamageType.unknown =>
    let d := a.basePower + user.attack - target.defense
    if d < 1 then 1 else d

/-- The heal amount computed inside Go `resolveHeal` (resolver.go lines
168-172). -/
def healFormula (a : AbilityDef) (user : Combatant) : Int :=
  let h := a.basePower + user.magic
  if h < 1 then 1 else h

/-- Go `resolveDamage`: applies the damage, then optionally attaches the
ability's status effect.  Returns the result and the mutated target. -/
def resolveDamage (a : AbilityDef) (user target : Combatant) :
    EffectResult × Combatant :=
  let damage := damageFormula a user target
  let hit := target.takeDamage damage
  let result : EffectResult :=
    { success := true, damage := hit.2, healing := 0,
      statusAdded := StatusEffectType.none,
      message := user.name ++ " uses " ++ a.name ++ " on " ++ target.name ++ "!" }
  if a.statusEffect ≠ StatusEffectType.none then
    ({ result with statusAdded := a.statusEffect },
      hit.1.addStatusEffect ⟨a.statusEffect, a.statusDuration, a.statusPower⟩)
  else (result, hit.1)

/-- Go `resolveHeal`. -/
def resolveHeal (a : AbilityDef) (user target : Combatant) :
    EffectResult × Combatant :=
  let healAmount := healFormula a user
  let healed := target.heal healAmount
  let result : EffectResult :=
    { success := true, damage := 0, healing := healed.2,
      statusAdded := StatusEffectType.none,
      message := user.name ++ " uses " ++ a.name ++ " on " ++ target.name ++ "!" }
  if a.statusEffect ≠ StatusEffectType.none then
    ({ result with statusAdded := a.statusEffect },
      healed.1.addStatusEffect ⟨a.statusEffect, a.statusDuration, a.statusPower⟩)
  else (result, healed.1)

/-- Go `resolveStatusEffect` (buff/debuff abilities). -/
def resolveStatusEffect (a : AbilityDef) (user target : Combatant) :
    EffectResult × Combatant :=
  if a.statusEffect = StatusEffectType.none then
    ({ success := false, damage := 0, healing := 0,
       statusAdded := StatusEffectType.none,
       message := a.name ++ " has no status effect defined" }, target)
  else
    ({ success := true, damage := 0, healing := 0,
       statusAdded := a.statusEffect,
       message := user.name ++ " uses " ++ a.name ++ " on " ++ target.name ++ "!" },
      target.addStatusEffect ⟨a.statusEffect, a.statusDuration, a.statusPower⟩)

/-- Go `EffectResolver.Resolve` for a non-nil ability and distinct user and
target objects: MP gate, MP spend, then dispatch on the effect type.
Returns (result, mutated user, mutated target). -/
def Resolve (a : AbilityDef) (user target : Combatant) :
    EffectResult × Combatant × Combatant :=
  if a.mpCost > 0 ∧ user.mp < a.mpCost then
    ({ success := false, damage := 0, healing := 0,
       statusAdded := StatusEffectType.none,
       message := user.name ++ " doesn't have enough MP!" }, user, target)
  else
    let user1 := if a.mpCost > 0 then (user.spendMP a.mpCost).1 else user
    match a.effectType with
    | EffectType.damage =>
      let r := resolveDamage a user1 target
      (r.1, user1, r.2)
    | EffectType.heal =>
      let r := resolveHeal a user1 target
      (r.1, user1, r.2)
    | EffectType.buff =>
      let r := resolveStatusEffect a user1 target
      (r.1, user1, r.2)
    | EffectType.debuff =>
      let r := resolveStatusEffect a user1 target
      (r.1, user1, r.2)
    | EffectType.unknown =>
      ({ success := false, damage := 0, healing := 0,
         statusAdded := StatusEffectType.none,
         message := "Unknown ability effect type" }, user1, target)

/-- Go `EffectResolver.Resolve` when the `user` and `target` pointers are
the same object (self-targeted abilities). -/
def ResolveSelf (a : AbilityDef) (u : Combatant) : EffectResult × Combatant :=
  if a.mpCost > 0 ∧ u.mp < a.mpCost then
    ({ success := false, damage := 0, healing := 0,
       statusAdded := StatusEffectType.none,
       message := u.name ++ " doesn't have enough MP!" }, u)
  else
    let u1 := if a.mpCost > 0 then (u.spendMP a.mpCost).1 else u
    match a.effectType with
    | EffectType.damage => resolveDamage a u1 u1
    | EffectType.heal => resolveHeal a u1 u1
    | EffectType.buff => resolveStatusEffect a u1 u1
    | EffectType.debuff => resolveStatusEffect a u1 u1
    | EffectType.unknown =>
      ({ success := false, damage := 0, healing := 0,
         statusAdded := StatusEffectType.none,
         message := "Unknown ability effect type" }, u1)

/-- Go `EffectResolver.CalculateDamage` (non-mutating preview), for a
non-nil ability: note the min-1 clamp sits after the switch, so it also
clamps `trueDamage`. -/
def CalculateDamage (a : AbilityDef) (user target : Combatant) : Int :=
  if a.effectType ≠ EffectType.damage then 0
  else
    let damage :=
      match a.damageType with
      | DamageType.physical => a.basePower + user.attack - target.defense
      | DamageType.magical => a.basePower + user.magic
      | DamageType.trueDamage => a.basePower
      | DamageType.unknown => a.basePower + user.attack - target.defense
    if damage < 1 then 1 else damage

/-- Go `EffectResolver.CalculateHealing` (non-mutating preview). -/
def CalculateHealing (a : AbilityDef) (user : Combatant) : Int :=
  if a.effectType ≠ EffectType.heal then 0
  else
    let healing := a.basePower + user.magic
    if healing < 1 then 1 else healing

/-- Go `EffectResolver.CanUse`. -/
def CanUse (a : AbilityDef) (user : Combatant) : Bool :=
  user.mp ≥ a.mpCost

/-! ## Formation placement (telemetry.go: findFormationPositions,
findLineFormation).  `dungeon.IsPassable` is the explicit predicate
`passable`; a `position` is an `Int × Int`. -/

/-- A tile coordinate (Go `position`). -/
abbrev Pos := Int × Int

/-- The fixed 2x2 relative offsets tried by `findFormationPositions`,
in priority order. -/
def offsets2x2 : List Pos := [(-1, 0), (0, 0), (-1, 1), (0, 1)]

/-- The eight scan directions of `findLineFormation`: cardinals first,
then diagonals. -/
def lineDirections : List Pos :=
  [(0, -1), (0, 1), (-1, 0), (1, 0), (-1, -1), (1, -1), (-1, 1), (1, 1)]

/-- The 2x2 collection loop of `findFormationPositions`: keep passable
offsets, returning early once `count` positions are collected. -/
def formationLoop (passable : Pos → Bool) (cx cy : Int) (count : Nat) :
    List Pos → List Pos → List Pos
  | [], acc => acc
  | off :: rest, acc =>
    let p : Pos := (cx + off.1, cy + off.2)
    if passable p then
      let acc' := acc ++ [p]
      if count ≤ acc'.length then acc'
      else formationLoop passable cx cy count rest acc'
    else formationLoop passable cx cy count rest acc

/-- The inner direction loop of `findLineFormation` at a fixed radius:
append each unvisited passable ray tile, returning early at `count`.
The visited set is exactly the set of already collected positions. -/
def lineDirLoop (passable : Pos → Bool) (cx cy : Int) (count : Nat)
    (radius : Int) : List Pos → List Pos → List Pos
  | [], acc => acc
  | dir :: rest, acc =>
    let p : Pos := (cx + dir.1 * radius, cy + dir.2 * radius)
    if !acc.contains p && passable p then
      let acc' := acc ++ [p]
      if count ≤ acc'.length then acc'
      else lineDirLoop passable cx cy count radius rest acc'
    else lineDirLoop passable cx cy count radius rest acc

/-- The outer radius loop of `findLineFormation` (radius 1..3, stopping
once `count` positions are collected). -/
def lineRadiusLoop (passable : Pos → Bool) (cx cy : Int) (count : Nat) :
    List Int → List Pos → List Pos
  | [], acc => acc
  | radius :: rest, acc =>
    if count ≤ acc.length then acc
    else
      lineRadiusLoop passable cx cy count rest
        (lineDirLoop passable cx cy count radius lineDirections acc)

/-- Go `findLineFormation`: start with the center tile if passable, then
expand outward along the eight direction rays for radius 1..3. -/
def findLineFormation (passable : Pos → Bool) (cx cy : Int) (count : Nat) :
    List Pos :=
  let acc0 : List Pos := if passable (cx, cy) then [(cx, cy)] else []
  lineRadiusLoop passable cx cy count [1, 2, 3] acc0

/-- Go `findFormationPositions`: try the 2x2 pattern; if it yields fewer
than `count` positions the collected list is replaced wholesale by the
`findLineFormation` result. -/
def findFormationPositions (passable : Pos → Bool) (cx cy : Int)
    (count : Nat) : List Pos :=
  let positions := formationLoop passable cx cy count offsets2x2 []
  if count ≤ positions.length then positions
  else findLineFormation passable cx cy count

/-! ## Game mode state machine and combat turn engine (game package). -/

/-- Go `game.State`. -/
inductive Mode
  | explore
  | combat
deriving DecidableEq, Repr

/-- Go `game.CombatPhase`. -/
inductive CombatPhase
  | playerTurn
  | enemyTurn
  | victory
  | defeat
deriving DecidableEq, Repr

/-- Go `game.CombatState`.  (`SelectedAbility` is never read by the
engine and is omitted.) -/
structure CombatStateData where
  phase : CombatPhase
  enemies : List Combatant
  activeMemberIndex : Nat
  activeEnemyIndex : Nat
  turnCount : Int
  lastMessage : String
deriving DecidableEq, Repr

/-- The combat-relevant state of Go `game.Game`.  World enemies carry the
room scoping through the `inRoom` predicate passed to `enterCombat`
(`enemy.RoomIndex == partyRoomIndex`). -/
structure Game where
  mode : Mode
  party : List Combatant
  enemies : List Combatant
  combatEnemies : List Combatant
  activeMemberIndex : Nat
  combatState : Option CombatStateData
deriving DecidableEq, Repr

/-- Replace the combat state. -/
def Game.setCS (g : Game) (cs : CombatStateData) : Game :=
  { g with combatState := some cs }

/-- A pointer to a combatant: a position in the party or in the
encounter's enemy list. -/
inductive UnitRef
  | member (pos : Nat)
  | enemy (pos : Nat)
deriving DecidableEq, Repr

/-- Dereference a combatant pointer. -/
def Game.getUnit (g : Game) : UnitRef → Option Combatant
  | UnitRef.member p => g.party.get? p
  | UnitRef.enemy p =>
    match g.combatState with
    | some cs => cs.enemies.get? p
    | none => none

/-- Write back through a combatant pointer. -/
def Game.setUnit (g : Game) (r : UnitRef) (c : Combatant) : Game :=
  match r with
  | UnitRef.member p => { g with party := g.party.set p c }
  | UnitRef.enemy p =>
    match g.combatState with
    | some cs => g.setCS { cs with enemies := cs.enemies.set p c }
    | none => g

/-- Go `Party.AliveMemberCount` / `CombatState.AliveEnemyCount` loop. -/
def aliveCount : List Combatant → Nat
  | [] => 0
  | m :: rest => (if m.isAlive then 1 else 0) + aliveCount rest

/-- Go `Party.IsDefeated`. -/
def isDefeated (members : List Combatant) : Bool :=
  aliveCount members = 0

/-- The `for i, m := range members { if m.IsAlive() { ...; break } }`
search: absolute index of the first living combatant at position ≥ the
start counter. -/
def firstAliveIdxLoop : List Combatant → Nat → Option Nat
  | [], _ => none
  | m :: rest, i => if m.isAlive then some i else firstAliveIdxLoop rest (i + 1)

/-- Go `Party.GetAliveMember` returning the list position together with
the member: walk the members, counting down `index` on each living one. -/
def getAliveMemberWithPosLoop :
    List Combatant → Nat → Nat → Option (Nat × Combatant)
  | [], _, _ => none
  | m :: rest, index, pos =>
    if m.isAlive then
      if index = 0 then some (pos, m)
      else getAliveMemberWithPosLoop rest (index - 1) (pos + 1)
    else getAliveMemberWithPosLoop rest index (pos + 1)

/-- Go `Party.GetAliveMember` (position + value form). -/
def getAliveMemberWithPos (members : List Combatant) (index : Nat) :
    Option (Nat × Combatant) :=
  getAliveMemberWithPosLoop members index 0

/-- Go `Game.getActiveMember`: `party.GetAliveMember(g.activeMemberIndex)`. -/
def Game.getActiveMember (g : Game) : Option (Nat × Combatant) :=
  getAliveMemberWithPos g.party g.activeMemberIndex

/-- Go `AbilityRegistry.GetByID` (ability ids are unique in the data). -/
def getByID (reg : List AbilityDef) (id : String) : Option AbilityDef :=
  reg.find? (fun a => a.id = id)

/-- Go `Game.enterCombat` followed by `initCombatState`: scope the
encounter to living enemies satisfying `inRoom`, reset
`Game.activeMemberIndex` to 0, and build a fresh `CombatState` whose
`ActiveMemberIndex` is the first living party member (0 if none). -/
def enterCombat (g : Game) (inRoom : Combatant → Bool) : Game :=
  let scopedEnemies := g.enemies.filter (fun e => inRoom e && e.isAlive)
  { g with
    combatEnemies := scopedEnemies
    activeMemberIndex := 0
    combatState := some
      { phase := CombatPhase.playerTurn
        enemies := scopedEnemies
        activeMemberIndex := (firstAliveIdxLoop g.party 0).getD 0
        activeEnemyIndex := 0
        turnCount := 0
        lastMessage := "Combat begins!" } }

/-- Go `Game.exitCombat`: clears `combatEnemies` and
`Game.activeMemberIndex` — but `Game.combatState` is left untouched. -/
def exitCombat (g : Game) : Game :=
  { g with combatEnemies := [], activeMemberIndex := 0 }

/-- Go `Game.transitionState`: no-op on same mode; entering Combat runs
`enterCombat`, leaving Combat runs `exitCombat`; then the mode is set. -/
def transitionState (g : Game) (newMode : Mode) (inRoom : Combatant → Bool) :
    Game :=
  if g.mode = newMode then g
  else
    let g1 :=
      if newMode = Mode.combat then enterCombat g inRoom
      else if g.mode = Mode.combat then exitCombat g
      else g
    { g1 with mode := newMode }

/-- A sequence of `transitionState` calls. -/
def runTransitions (g : Game) : List (Mode × (Combatant → Bool)) → Game
  | [] => g
  | step :: rest => runTransitions (transitionState g step.1 step.2) rest

/-- Go `Game.executeCombatTurn`: resolve the ability from actor to target
(via `ResolveSelf` when the two pointers are the same object), write the
mutated combatants back, build the message, and increment the turn
counter.  Call sites guarantee a live combat state. -/
def executeCombatTurn (g : Game) (a : AbilityDef) (actor target : UnitRef) :
    Game :=
  match g.getUnit actor, g.getUnit target with
  | some au, some tu =>
    let rut : EffectResult × Combatant × Combatant :=
      if actor = target then
        let r := ResolveSelf a au
        (r.1, r.2, r.2)
      else
        Resolve a au tu
    let g1 :=
      if actor = target then g.setUnit actor rut.2.1
      else (g.setUnit actor rut.2.1).setUnit target rut.2.2
    let result := rut.1
    let msg :=
      if result.success then
        if result.damage > 0 then
          result.message ++ " " ++ tu.name ++ " takes " ++
            toString result.damage ++ " damage!"
        else if result.healing > 0 then
          result.message ++ " " ++ tu.name ++ " heals " ++
            toString result.healing ++ " HP!"
        else result.message
      else result.message
    match g1.combatState with
    | some cs =>
      g1.setCS { cs with
        lastMessage := msg
        turnCount := cs.turnCount + 1 }
    | none => g1
  | _, _ => g

/-- Go `Game.checkCombatEnd`: defeat first, then victory; returns the
updated game and whether combat ended. -/
def checkCombatEnd (g : Game) : Game × Bool :=
  match g.combatState with
  | none => (g, false)
  | some cs =>
    if isDefeated g.party then
      (g.setCS { cs with
        phase := CombatPhase.defeat
        lastMessage := "Your party has been defeated!" }, true)
    else if aliveCount cs.enemies = 0 then
      (g.setCS { cs with
        phase := CombatPhase.victory
        lastMessage := "Victory! All enemies defeated!" }, true)
    else (g, false)

/-- Go `Game.advanceToNextPartyMember`: next living member after
`CombatState.ActiveMemberIndex`, else switch to the enemy phase. -/
def advanceToNextPartyMember (g : Game) : Game :=
  match g.combatState with
  | none => g
  | some cs =>
    match firstAliveIdxLoop (g.party.drop (cs.activeMemberIndex + 1))
        (cs.activeMemberIndex + 1) with
    | some i => g.setCS { cs with activeMemberIndex := i }
    | none =>
      g.setCS { cs with
        phase := CombatPhase.enemyTurn
        activeEnemyIndex := 0 }

/-- The shuffled affordable-search loop of Go `selectEnemyAbility`: try
the enemy's ability ids in the order given by the permutation, returning
the first found, affordable one. -/
def findUsableLoop (reg : List AbilityDef) (enemy : Combatant) :
    List Nat → Option AbilityDef
  | [] => none
  | idx :: rest =>
    match getByID reg (enemy.abilityIds.getD idx "") with
    | some a =>
      if enemy.mp ≥ a.mpCost then some a
      else findUsableLoop reg enemy rest
    | none => findUsableLoop reg enemy rest

/-- Go `Game.selectEnemyAbility` with the result of `rng.Perm` made an
explicit argument: first affordable ability in shuffled order, else the
enemy's first listed ability. -/
def selectEnemyAbility (reg : List AbilityDef) (enemy : Combatant)
    (perm : List Nat) : Option AbilityDef :=
  if enemy.abilityIds.length = 0 then none
  else
    match findUsableLoop reg enemy perm with
    | some a => some a
    | none => getByID reg (enemy.abilityIds.getD 0 "")

/-- Go `selectLowestHPPartyMember` / `selectLowestHPEnemy`: position of
the first living combatant with strictly lowest HP. -/
def lowestHPPosLoop (units : List Combatant) (pos : Nat)
    (best : Option (Nat × Int)) : Option Nat :=
  match units with
  | [] => best.map (fun b => b.1)
  | m :: rest =>
    let best' :=
      if m.isAlive then
        match best with
        | none => some (pos, m.hp)
        | some b => if m.hp < b.2 then some (pos, m.hp) else some b
      else best
    lowestHPPosLoop rest (pos + 1) best'

/-- Position of the living combatant with lowest HP (ties broken by
order), or `none`. -/
def lowestHPPos (units : List Combatant) : Option Nat :=
  lowestHPPosLoop units 0 none

/-- Go `Game.selectEnemyTarget` for the enemy at `enemyPos`. -/
def selectEnemyTarget (g : Game) (enemyPos : Nat) (a : AbilityDef) :
    Option UnitRef :=
  match a.targetType with
  | TargetType.self => some (UnitRef.enemy enemyPos)
  | TargetType.singleEnemy => (lowestHPPos g.party).map UnitRef.member
  | TargetType.allEnemies => (lowestHPPos g.party).map UnitRef.member
  | TargetType.singleAlly =>
    (match g.combatState with
     | some cs => (lowestHPPos cs.enemies).map UnitRef.enemy
     | none => none)
  | TargetType.allAllies =>
    (match g.combatState with
     | some cs => (lowestHPPos cs.enemies).map UnitRef.enemy
     | none => none)
  | TargetType.unknown => (lowestHPPos g.party).map UnitRef.member

/-- The enemy sweep of Go `executeEnemyTurns`: process the enemies at
positions `pos, pos+1, ...` (`remaining` of them), checking for a party
wipe after each action.  Returns the game and whether the sweep returned
early on a defeat. -/
def executeEnemyTurnsFrom (reg : List AbilityDef) (perms : Nat → List Nat)
    (g : Game) (pos : Nat) : Nat → Game × Bool
  | 0 => (g, false)
  | r + 1 =>
    match g.combatState with
    | none => (g, false)
    | some cs =>
      match cs.enemies.get? pos with
      | none => (g, false)
      | some enemy =>
        if !enemy.isAlive then executeEnemyTurnsFrom reg perms g (pos + 1) r
        else
          let g1 :=
            match selectEnemyAbility reg enemy (perms pos) with
            | some a =>
              (match selectEnemyTarget g pos a with
               | some t => executeCombatTurn g a (UnitRef.enemy pos) t
               | none => g)
            | none => g
          if isDefeated g1.party then
            (match g1.combatState with
             | some cs1 =>
               (g1.setCS { cs1 with
                  phase := CombatPhase.defeat
                  lastMessage := "Your party has been defeated!" }, true)
             | none => (g1, true))
          else executeEnemyTurnsFrom reg perms g1 (pos + 1) r

/-- Go `Game.executeEnemyTurns`: run the sweep over all encounter
enemies; if no wipe occurred, either declare victory or start a new round
at the first living party member. -/
def executeEnemyTurns (reg : List AbilityDef) (perms : Nat → List Nat)
    (g : Game) : Game :=
  let n :=
    match g.combatState with
    | some cs => cs.enemies.length
    | none => 0
  let swept := executeEnemyTurnsFrom reg perms g 0 n
  if swept.2 then swept.1
  else
    match swept.1.combatState with
    | none => swept.1
    | some cs =>
      if aliveCount cs.enemies = 0 then
        swept.1.setCS { cs with
          phase := CombatPhase.victory
          lastMessage := "Victory! All enemies defeated!" }
      else
        match firstAliveIdxLoop swept.1.party 0 with
        | some i =>
          swept.1.setCS { cs with
            phase := CombatPhase.playerTurn
            activeMemberIndex := i }
        | none =>
          swept.1.setCS { cs with phase := CombatPhase.playerTurn }

/-- Go `Game.handleCombatAbilitySelection`: the full player-action path
for a number-key press selecting `abilityIndex`. -/
def handleCombatAbilitySelection (reg : List AbilityDef)
    (perms : Nat → List Nat) (g : Game) (abilityIndex : Nat) : Game :=
  match g.combatState with
  | none => g
  | some cs =>
    if cs.phase ≠ CombatPhase.playerTurn then g
    else
      match g.getActiveMember with
      | none => g
      | some mem =>
        let abilityIDs := mem.2.abilityIds
        if abilityIDs.length ≤ abilityIndex then g
        else
          match getByID reg (abilityIDs.getD abilityIndex "") with
          | none => g
          | some ability =>
            if mem.2.mp < ability.mpCost then
              g.setCS { cs with lastMessage := "Not enough MP!" }
            else
              let target? : Option UnitRef :=
                if ability.IsOffensive then
                  (firstAliveIdxLoop cs.enemies 0).map UnitRef.enemy
                else some (UnitRef.member mem.1)
              match target? with
              | none => g
              | some target =>
                let g1 := executeCombatTurn g ability (UnitRef.member mem.1)
                  target
                let ce := checkCombatEnd g1
                if ce.2 then ce.1
                else
                  let g3 := advanceToNextPartyMember ce.1
                  match g3.combatState with
                  | none => g3
                  | some cs3 =>
                    if cs3.phase = CombatPhase.enemyTurn then
                      executeEnemyTurns reg perms g3
                    else g3

/-! ## Spec-side definitions used to state the claims. -/

/-- Iterated ticking: the combatant after `n` invocations of
`TickStatusEffects`. -/
def tickN (c : Combatant) : Nat → Combatant
  | 0 => c
  | n + 1 => (tickN c n).tickStatusEffects.1

/-- Spec-side description of "the first living party member", with its
list position. -/
def firstAliveMemberSpec : List Combatant → Option (Nat × Combatant)
  | [] => none
  | m :: rest =>
    if m.isAlive then some (0, m)
    else (firstAliveMemberSpec rest).map (fun p => (p.1 + 1, p.2))

/-- Spec-side candidate stream of `findLineFormation`: the center tile
followed by the eight direction rays at radius 1, 2, 3 (cardinals before
diagonals within each radius). -/
def lineCandidates (cx cy : Int) : List Pos :=
  (cx, cy) ::
    ([1, 2, 3] : List Int).flatMap
      (fun r => lineDirections.map (fun d => (cx + d.1 * r, cy + d.2 * r)))

/-- The spec's damage formula, written from the spec's words:
physical = max(1, base_power + actor.attack - target.defense);
magical = max(1, base_power + actor.magic); true = base_power unmitigated
(the resolver's `default` branch falls back to the physical formula). -/
def claimedDamage (a : AbilityDef) (user target : Combatant) : Int :=
  match a.damageType with
  | DamageType.physical => max 1 (a.basePower + user.attack - target.defense)
  | DamageType.magical => max 1 (a.basePower + user.magic)
  | DamageType.trueDamage => a.basePower
  | DamageType.unknown => max 1 (a.basePower + user.attack - target.defense)

/-! ## Concrete instances for counterexamples and witnesses. -/

/-- A plain physical attack: base power 5, no MP cost, no status rider. -/
def atkAbility : AbilityDef :=
  { id := "attack", name := "Attack", effectType := EffectType.damage,
    targetType := TargetType.singleEnemy, damageType := DamageType.physical,
    basePower := 5, mpCost := 0, statusEffect := StatusEffectType.none,
    statusDuration := 0, statusPower := 0 }

/-- A true-damage ability with base power 0 (exercises the missing
min-1 clamp on the mutating path). -/
def trueZeroAbility : AbilityDef :=
  { id := "sunder", name := "Sunder", effectType := EffectType.damage,
    targetType := TargetType.singleEnemy, damageType := DamageType.trueDamage,
    basePower := 0, mpCost := 0, statusEffect := StatusEffectType.none,
    statusDuration := 0, statusPower := 0 }

/-- A costly spell: the only ability of `manalessEnemy`, unaffordable. -/
def bigSpell : AbilityDef :=
  { id := "bigspell", name := "Big Spell", effectType := EffectType.damage,
    targetType := TargetType.singleEnemy, damageType := DamageType.magical,
    basePower := 12, mpCost := 5, statusEffect := StatusEffectType.none,
    statusDuration := 0, statusPower := 0 }

/-- A buff ability with a positive MP cost but no status effect
configured (the data-authoring error the resolver reports). -/
def hollowBuff : AbilityDef :=
  { id := "war_cry", name := "War Cry", effectType := EffectType.buff,
    targetType := TargetType.self, damageType := DamageType.physical,
    basePower := 0, mpCost := 2, statusEffect := StatusEffectType.none,
    statusDuration := 0, statusPower := 0 }

/-- An ability whose effect type string is none of the four known values. -/
def oddAbility : AbilityDef :=
  { id := "odd", name := "Odd", effectType := EffectType.unknown,
    targetType := TargetType.self, damageType := DamageType.physical,
    basePower := 0, mpCost := 2, statusEffect := StatusEffectType.none,
    statusDuration := 0, statusPower := 0 }

/-- An attacker with attack 8 (the spec's concrete damage scenario). -/
def warrior8 : Combatant :=
  { name := "Warrior", hp := 30, maxHp := 30, mp := 10, maxMp := 10,
    attack := 8, defense := 6, magic := 0, abilityIds := ["attack"],
    statusEffects := [] }

/-- A defender with defense 3 and 15 HP (the spec's concrete scenario). -/
def target3 : Combatant :=
  { name := "Goblin", hp := 15, maxHp := 15, mp := 0, maxMp := 0,
    attack := 2, defense := 3, magic := 0, abilityIds := ["attack"],
    statusEffects := [] }

/-- The poison effect of the spec's ticking scenario: power 3, 2 turns. -/
def poisonEffect : StatusEffect := ⟨StatusEffectType.poison, 2, 3⟩

/-- A 20-HP combatant carrying `poisonEffect`. -/
def poisonVictim : Combatant :=
  { name := "Victim", hp := 20, maxHp := 20, mp := 0, maxMp := 0,
    attack := 0, defense := 0, magic := 0, abilityIds := [],
    statusEffects := [poisonEffect] }

/-- A party member carrying `poisonEffect` into combat. -/
def poisonedMember : Combatant :=
  { name := "Aldric", hp := 20, maxHp := 20, mp := 10, maxMp := 10,
    attack := 5, defense := 3, magic := 3, abilityIds := ["attack"],
    statusEffects := [poisonEffect] }

/-- A sturdy enemy for one-round scenarios. -/
def goblinEnemy : Combatant :=
  { name := "Goblin", hp := 30, maxHp := 30, mp := 0, maxMp := 0,
    attack := 2, defense := 1, magic := 0, abilityIds := ["attack"],
    statusEffects := [] }

/-- An enemy with 0 MP whose only known ability is the 5-MP `bigSpell`. -/
def manalessEnemy : Combatant :=
  { name := "Imp", hp := 10, maxHp := 10, mp := 0, maxMp := 0,
    attack := 2, defense := 1, magic := 0, abilityIds := ["bigspell"],
    statusEffects := [] }

/-- An in-combat game: one poisoned member versus one goblin, player
turn, fresh combat state. -/
def combatGame0 : Game :=
  { mode := Mode.combat, party := [poisonedMember], enemies := [goblinEnemy],
    combatEnemies := [goblinEnemy], activeMemberIndex := 0,
    combatState := some
      { phase := CombatPhase.playerTurn, enemies := [goblinEnemy],
        activeMemberIndex := 0, activeEnemyIndex := 0, turnCount := 0,
        lastMessage := "Combat begins!" } }

/-- The same world before any combat: explore mode, no combat state. -/
def exploreGame0 : Game :=
  { mode := Mode.explore, party := [poisonedMember], enemies := [goblinEnemy],
    combatEnemies := [], activeMemberIndex := 0, combatState := none }

/-- Room scoping that includes every enemy. -/
def allScope : Combatant → Bool := fun _ => true

/-- The identity permutation oracle for single-ability enemies. -/
def permZero : Nat → List Nat := fun _ => [0]

/-- One full combat round from `combatGame0`: the player uses ability 0,
then the enemy sweep runs and a new round begins. -/
def roundResult : Game :=
  handleCombatAbilitySelection [atkAbility] permZero combatGame0 0

/-- Passability for the formation counterexample: center, south, and
south-west of the 2x2 pattern plus the north and east ray tiles. -/
def passableCross (p : Pos) : Bool :=
  p = ((0 : Int), (0 : Int)) || p = ((0 : Int), (1 : Int)) ||
    p = ((-1 : Int), (1 : Int)) || p = ((0 : Int), (-1 : Int)) ||
    p = ((1 : Int), (0 : Int))

/-! ## Helper lemmas about the combatant mutators. -/

theorem takeDamage_spec (c : Combatant) (amount : Int) (hA : 0 ≤ amount)
    (hHP : 0 ≤ c.hp) :
    c.takeDamage amount =
      ({ c with hp := c.hp - min amount c.hp }, min amount c.hp) := by
  unfold Combatant.takeDamage
  split
  · have hz : amount = 0 := le_antisymm (by assumption) hA
    subst hz
    have : min (0 : Int) c.hp = 0 := min_eq_left hHP
    rw [this]
    simp
  · have : (if amount > c.hp then c.hp else amount) = min amount c.hp := by
      split <;> omega
    rw [this]

theorem heal_spec (c : Combatant) (amount : Int) (hA : 0 ≤ amount)
    (hLe : c.hp ≤ c.maxHp) :
    c.heal amount =
      ({ c with hp := c.hp + min amount (c.maxHp - c.hp) },
        min amount (c.maxHp - c.hp)) := by
  unfold Combatant.heal
  split
  · have hz : amount = 0 := le_antisymm (by assumption) hA
    subst hz
    have : min (0 : Int) (c.maxHp - c.hp) = 0 := min_eq_left (by omega)
    rw [this]
    simp
  · have : (if c.hp + amount > c.maxHp then c.maxHp - c.hp else amount) =
        min amount (c.maxHp - c.hp) := by
      split <;> omega
    rw [this]

theorem spendMP_stats (c : Combatant) (x : Int) :
    (c.spendMP x).1.attack = c.attack ∧ (c.spendMP x).1.magic = c.magic ∧
      (c.spendMP x).1.name = c.name ∧ (c.spendMP x).1.hp = c.hp ∧
      (c.spendMP x).1.defense = c.defense := by
  unfold Combatant.spendMP
  split <;> exact ⟨rfl, rfl, rfl, rfl, rfl⟩

theorem spendMP_mp_of_le (c : Combatant) (x : Int) (h : x ≤ c.mp) :
    (c.spendMP x).1.mp = c.mp - x := by
  unfold Combatant.spendMP
  rw [if_neg (by omega)]

theorem takeDamage_mp (c : Combatant) (x : Int) :
    (c.takeDamage x).1.mp = c.mp := by
  unfold Combatant.takeDamage
  split <;> rfl

theorem heal_mp (c : Combatant) (x : Int) : (c.heal x).1.mp = c.mp := by
  unfold Combatant.heal
  split <;> rfl

theorem addStatusEffect_mp (c : Combatant) (e : StatusEffect) :
    (c.addStatusEffect e).mp = c.mp := rfl

theorem addStatusEffect_hp (c : Combatant) (e : StatusEffect) :
    (c.addStatusEffect e).hp = c.hp := rfl

theorem resolveDamage_target_mp (a : AbilityDef) (u t : Combatant) :
    (resolveDamage a u t).2.mp = t.mp := by
  unfold resolveDamage
  split <;> simp [addStatusEffect_mp, takeDamage_mp]

theorem resolveHeal_target_mp (a : AbilityDef) (u t : Combatant) :
    (resolveHeal a u t).2.mp = t.mp := by
  unfold resolveHeal
  split <;> simp [addStatusEffect_mp, heal_mp]

theorem resolveStatusEffect_target_mp (a : AbilityDef) (u t : Combatant) :
    (resolveStatusEffect a u t).2.mp = t.mp := by
  unfold resolveStatusEffect
  split <;> simp [addStatusEffect_mp]

theorem damageFormula_eq_claimed (a : AbilityDef) (u t : Combatant) :
    damageFormula a u t = claimedDamage a u t := by
  unfold damageFormula claimedDamage
  cases a.damageType <;> dsimp only
  case physical =>
    rcases le_or_lt 1 (a.basePower + u.attack - t.defense) with h | h
    · rw [max_eq_right h, if_neg (by omega)]
    · rw [max_eq_left (by omega), if_pos (by omega)]
  case magical =>
    rcases le_or_lt 1 (a.basePower + u.magic) with h | h
    · rw [max_eq_right h, if_neg (by omega)]
    · rw [max_eq_left (by omega), if_pos (by omega)]
  case unknown =>
    rcases le_or_lt 1 (a.basePower + u.attack - t.defense) with h | h
    · rw [max_eq_right h, if_neg (by omega)]
    · rw [max_eq_left (by omega), if_pos (by omega)]

theorem damageFormula_spendMP (a : AbilityDef) (u t : Combatant) (x : Int) :
    damageFormula a (u.spendMP x).1 t = damageFormula a u t := by
  obtain ⟨hatk, hmag, -, -, -⟩ := spendMP_stats u x
  unfold damageFormula
  cases a.damageType <;> simp [hatk, hmag]

theorem resolveDamage_spec (a : AbilityDef) (u t : Combatant)
    (hD : 0 ≤ damageFormula a u t) (hHP : 0 ≤ t.hp) :
    (resolveDamage a u t).1.success = true ∧
    (resolveDamage a u t).1.damage = min (damageFormula a u t) t.hp ∧
    (resolveDamage a u t).2.hp = t.hp - min (damageFormula a u t) t.hp := by
  unfold resolveDamage
  dsimp only
  rw [takeDamage_spec t _ hD hHP]
  split <;> exact ⟨rfl, rfl, rfl⟩

theorem claimedDamage_nonneg (a : AbilityDef) (u t : Combatant)
    (hBP : 0 ≤ a.basePower) : 0 ≤ claimedDamage a u t := by
  unfold claimedDamage
  cases a.damageType <;> dsimp only
  · exact le_trans zero_le_one (le_max_left _ _)
  · exact le_trans zero_le_one (le_max_left _ _)
  · exact hBP
  · exact le_trans zero_le_one (le_max_left _ _)

/-! ## Claim theorems. -/

/-- C1: for every resolved damage ability (affordable, with non-negative
base power, against a target with non-negative HP), the computed damage is
max(1, base_power + attack - defense) for physical, max(1, base_power +
magic) for magical (defense ignored), and base_power unmitigated for true
damage; the damage reported in the result and applied to the target is
min(computed, target's pre-hit HP). -/
theorem resolve_damage_formula_and_clamp (a : AbilityDef)
    (user target : Combatant)
    (hEff : a.effectType = EffectType.damage)
    (hMP : a.mpCost ≤ user.mp)
    (hBP : 0 ≤ a.basePower)
    (hHP : 0 ≤ target.hp) :
    (Resolve a user target).1.success = true ∧
    (Resolve a user target).1.damage =
      min (claimedDamage a user target) target.hp ∧
    (Resolve a user target).2.2.hp =
      target.hp - min (claimedDamage a user target) target.hp := by
  have hgate : ¬(a.mpCost > 0 ∧ user.mp < a.mpCost) := by omega
  simp only [Resolve, if_neg hgate, hEff]
  have hform :
      damageFormula a (if a.mpCost > 0 then (user.spendMP a.mpCost).1 else user)
        target = claimedDamage a user target := by
    split
    · rw [damageFormula_spendMP, damageFormula_eq_claimed]
    · rw [damageFormula_eq_claimed]
  obtain ⟨hs, hd, hh⟩ :=
    resolveDamage_spec a
      (if a.mpCost > 0 then (user.spendMP a.mpCost).1 else user) target
      (by rw [hform]; exact claimedDamage_nonneg a user target hBP) hHP
  rw [hform] at hd hh
  exact ⟨hs, hd, hh⟩

/-- Witness for C1: the spec's concrete scenario — attack 8, base power 5
physical, defense 3, 15-HP target: exactly 10 damage, HP 15 → 5. -/
theorem resolve_damage_formula_and_clamp_witness :
    (atkAbility.effectType = EffectType.damage ∧
      atkAbility.mpCost ≤ warrior8.mp ∧ 0 ≤ atkAbility.basePower ∧
      0 ≤ target3.hp) ∧
    ((Resolve atkAbility warrior8 target3).1.success = true ∧
      (Resolve atkAbility warrior8 target3).1.damage =
        min (claimedDamage atkAbility warrior8 target3) target3.hp ∧
      (Resolve atkAbility warrior8 target3).2.2.hp =
        target3.hp - min (claimedDamage atkAbility warrior8 target3) target3.hp) ∧
    (Resolve atkAbility warrior8 target3).1.damage = 10 ∧
    (Resolve atkAbility warrior8 target3).2.2.hp = 5 :=
  ⟨⟨rfl, by decide, by decide, by decide⟩,
    resolve_damage_formula_and_clamp atkAbility warrior8 target3 rfl
      (by decide) (by decide) (by decide),
    by decide, by decide⟩

/-- C2 counterexample: for a true-damage ability with base power 0, the
preview `CalculateDamage` returns 1 (its min-1 clamp sits after the
switch), while the mutating path computes 0 before clamping to HP and
deals 0 — the formulas are not identical for the true kind. -/
theorem calculate_damage_true_kind_mismatch :
    CalculateDamage trueZeroAbility warrior8 target3 = 1 ∧
    damageFormula trueZeroAbility warrior8 target3 = 0 ∧
    (Resolve trueZeroAbility warrior8 target3).1.damage = 0 ∧
    (Resolve trueZeroAbility warrior8 target3).2.2.hp = target3.hp := by
  refine ⟨by decide, by decide, by decide, by decide⟩

/-- C2 amended: the preview functions use the resolver's formulas
verbatim for physical, magical and unknown damage kinds and for healing;
for the true kind they agree exactly when base power ≥ 1 (CalculateDamage
clamps true damage to a minimum of 1, the mutating path does not). -/
theorem preview_matches_resolver_formulas (a : AbilityDef)
    (user target : Combatant)
    (hTrue : a.damageType = DamageType.trueDamage → 1 ≤ a.basePower) :
    (a.effectType = EffectType.damage →
      CalculateDamage a user target = damageFormula a user target) ∧
    (a.effectType = EffectType.heal →
      CalculateHealing a user = healFormula a user) := by
  constructor
  · intro h
    unfold CalculateDamage damageFormula
    rw [if_neg (by simp [h])]
    cases hD : a.damageType
    all_goals dsimp only
    all_goals
      first
        | rfl
        | rw [if_neg (by have := hTrue hD; omega)]
  · intro h
    unfold CalculateHealing healFormula
    rw [if_neg (by simp [h])]

/-- Witness for C2 amended: physical attack and a heal evaluated at
concrete combatants. -/
theorem preview_matches_resolver_formulas_witness :
    (atkAbility.damageType = DamageType.trueDamage →
      1 ≤ atkAbility.basePower) ∧
    ((atkAbility.effectType = EffectType.damage →
      CalculateDamage atkAbility warrior8 target3 =
        damageFormula atkAbility warrior8 target3) ∧
    (atkAbility.effectType = EffectType.heal →
      CalculateHealing atkAbility warrior8 = healFormula atkAbility warrior8)) ∧
    CalculateDamage atkAbility warrior8 target3 = 10 :=
  ⟨by decide,
    preview_matches_resolver_formulas atkAbility warrior8 target3 (by decide),
    by decide⟩

/-- C9: a buff/debuff ability with a positive MP cost but no configured
status effect fails with the 'has no status effect defined' message, yet
the actor's MP has already been deducted by the full cost — the failure
is not atomic; the unknown-effect-type path behaves the same way. -/
theorem status_failure_after_mp_spend :
    (∀ (a : AbilityDef) (u t : Combatant),
      (a.effectType = EffectType.buff ∨ a.effectType = EffectType.debuff) →
      a.statusEffect = StatusEffectType.none →
      0 < a.mpCost → a.mpCost ≤ u.mp →
      (Resolve a u t).1.success = false ∧
      (Resolve a u t).1.message = a.name ++ " has no status effect defined" ∧
      (Resolve a u t).2.1.mp = u.mp - a.mpCost ∧
      (Resolve a u t).2.1 ≠ u ∧
      (Resolve a u t).2.2 = t) ∧
    (∀ (a : AbilityDef) (u t : Combatant),
      a.effectType = EffectType.unknown →
      0 < a.mpCost → a.mpCost ≤ u.mp →
      (Resolve a u t).1.success = false ∧
      (Resolve a u t).1.message = "Unknown ability effect type" ∧
      (Resolve a u t).2.1.mp = u.mp - a.mpCost ∧
      (Resolve a u t).2.1 ≠ u) := by
  constructor
  · intro a u t hEff hNone hPos hAfford
    have hgate : ¬(a.mpCost > 0 ∧ u.mp < a.mpCost) := by omega
    have hmp : ((if a.mpCost > 0 then (u.spendMP a.mpCost).1 else u)).mp =
        u.mp - a.mpCost := by
      rw [if_pos hPos]
      exact spendMP_mp_of_le u a.mpCost hAfford
    have hne : (if a.mpCost > 0 then (u.spendMP a.mpCost).1 else u) ≠ u := by
      intro heq
      rw [heq] at hmp
      omega
    have hres : Resolve a u t =
        ({ success := false, damage := 0, healing := 0,
           statusAdded := StatusEffectType.none,
           message := a.name ++ " has no status effect defined" },
         (if a.mpCost > 0 then (u.spendMP a.mpCost).1 else u), t) := by
      rcases hEff with h | h <;>
        simp only [Resolve, if_neg hgate, h, resolveStatusEffect, if_pos hNone]
    rw [hres]
    exact ⟨rfl, rfl, hmp, hne, rfl⟩
  · intro a u t hEff hPos hAfford
    have hgate : ¬(a.mpCost > 0 ∧ u.mp < a.mpCost) := by omega
    have hmp : ((if a.mpCost > 0 then (u.spendMP a.mpCost).1 else u)).mp =
        u.mp - a.mpCost := by
      rw [if_pos hPos]
      exact spendMP_mp_of_le u a.mpCost hAfford
    have hne : (if a.mpCost > 0 then (u.spendMP a.mpCost).1 else u) ≠ u := by
      intro heq
      rw [heq] at hmp
      omega
    have hres : Resolve a u t =
        ({ success := false, damage := 0, healing := 0,
           statusAdded := StatusEffectType.none,
           message := "Unknown ability effect type" },
         (if a.mpCost > 0 then (u.spendMP a.mpCost).1 else u), t) := by
      simp only [Resolve, if_neg hgate, hEff]
    rw [hres]
    exact ⟨rfl, rfl, hmp, hne⟩

/-- Witness for C9: a 2-MP buff with no status effect, cast by a 10-MP
warrior: the resolution fails but the warrior's MP drops to 8; likewise
for an unknown effect type. -/
theorem status_failure_after_mp_spend_witness :
    ((hollowBuff.effectType = EffectType.buff ∨
        hollowBuff.effectType = EffectType.debuff) ∧
      hollowBuff.statusEffect = StatusEffectType.none ∧
      0 < hollowBuff.mpCost ∧ hollowBuff.mpCost ≤ warrior8.mp) ∧
    ((Resolve hollowBuff warrior8 target3).1.success = false ∧
      (Resolve hollowBuff warrior8 target3).1.message =
        hollowBuff.name ++ " has no status effect defined" ∧
      (Resolve hollowBuff warrior8 target3).2.1.mp =
        warrior8.mp - hollowBuff.mpCost ∧
      (Resolve hollowBuff warrior8 target3).2.1 ≠ warrior8 ∧
      (Resolve hollowBuff warrior8 target3).2.2 = target3) ∧
    ((Resolve oddAbility warrior8 target3).1.success = false ∧
      (Resolve oddAbility warrior8 target3).1.message =
        "Unknown ability effect type" ∧
      (Resolve oddAbility warrior8 target3).2.1.mp =
        warrior8.mp - oddAbility.mpCost ∧
      (Resolve oddAbility warrior8 target3).2.1 ≠ warrior8) :=
  ⟨⟨Or.inl rfl, rfl, by decide, by decide⟩,
    status_failure_after_mp_spend.1 hollowBuff warrior8 target3 (Or.inl rfl)
      rfl (by decide) (by decide),
    status_failure_after_mp_spend.2 oddAbility warrior8 target3 rfl
      (by decide) (by decide)⟩

theorem tick_empty (c : Combatant) (h : c.statusEffects = []) :
    c.tickStatusEffects = (c, []) := by
  unfold Combatant.tickStatusEffects
  rw [h]
  unfold tickLoop
  dsimp only
  rw [← h]

theorem tick_single_effects (c : Combatant) (e : StatusEffect)
    (h : c.statusEffects = [e]) :
    c.tickStatusEffects.1.statusEffects =
      if e.remainingTurns ≤ 1 then []
      else [{ e with remainingTurns := e.remainingTurns - 1 }] := by
  simp only [Combatant.tickStatusEffects, h, tickLoop]
  by_cases hle : e.remainingTurns ≤ 1
  · rw [if_pos (by simp only [decide_eq_true_eq]; omega), if_pos hle]
  · rw [if_neg (by simp only [decide_eq_true_eq]; omega), if_neg hle]

theorem tick_single_ended (c : Combatant) (e : StatusEffect)
    (h : c.statusEffects = [e]) :
    c.tickStatusEffects.2.map StatusTick.ended =
      [decide (e.remainingTurns ≤ 1)] := by
  simp only [Combatant.tickStatusEffects, h, tickLoop, List.map]
  congr 1
  simp only [decide_eq_decide]
  omega

theorem tick_single_poison (c : Combatant) (e : StatusEffect)
    (h : c.statusEffects = [e]) (ht : e.type = StatusEffectType.poison)
    (hpow : 0 ≤ e.power) (hhp : 0 ≤ c.hp) :
    c.tickStatusEffects.2.map StatusTick.amount = [min e.power c.hp] ∧
    c.tickStatusEffects.1.hp = c.hp - min e.power c.hp := by
  simp only [Combatant.tickStatusEffects, h, tickLoop, ht,
    takeDamage_spec c e.power hpow hhp, List.map]
  exact ⟨by trivial, by trivial⟩

theorem tick_single_regen (c : Combatant) (e : StatusEffect)
    (h : c.statusEffects = [e]) (ht : e.type = StatusEffectType.regen)
    (hpow : 0 ≤ e.power) (hle : c.hp ≤ c.maxHp) :
    c.tickStatusEffects.2.map StatusTick.amount =
      [min e.power (c.maxHp - c.hp)] ∧
    c.tickStatusEffects.1.hp = c.hp + min e.power (c.maxHp - c.hp) := by
  simp only [Combatant.tickStatusEffects, h, tickLoop, ht,
    heal_spec c e.power hpow hle, List.map]
  exact ⟨by trivial, by trivial⟩

theorem tickN_single_inv (c : Combatant) (e : StatusEffect) (N : Nat)
    (h : c.statusEffects = [e]) (h2 : e.remainingTurns = (N : Int)) :
    ∀ k : Nat, k < N → (tickN c k).statusEffects =
      [{ e with remainingTurns := (N : Int) - (k : Int) }] := by
  intro k
  induction k with
  | zero =>
    intro _
    rw [tickN, h]
    congr 1
    cases e
    simp at h2
    simp [h2]
  | succ k ih =>
    intro hk
    have hprev := ih (by omega)
    have hstep := tick_single_effects (tickN c k)
      { e with remainingTurns := (N : Int) - (k : Int) } hprev
    rw [tickN, hstep, if_neg (by push_cast; omega)]
    congr 2
    push_cast
    ring

theorem tickN_single_gone (c : Combatant) (e : StatusEffect) (N : Nat)
    (h : c.statusEffects = [e]) (h2 : e.remainingTurns = (N : Int))
    (h3 : 1 ≤ N) :
    ∀ k : Nat, N ≤ k → (tickN c k).statusEffects = [] := by
  intro k hk
  induction k, hk using Nat.le_induction with
  | base =>
    have hprev := tickN_single_inv c e N h h2 (N - 1) (by omega)
    have : N = (N - 1) + 1 := by omega
    rw [this, tickN,
      tick_single_effects _ _ hprev, if_pos (by push_cast; omega)]
  | succ k hk ih =>
    rw [tickN, tick_empty _ ih]
    exact ih

/-- C7: a combatant holding a single status effect with remaining_turns =
N ≥ 1 produces exactly one tick on each of the first N invocations, the
Nth tick is flagged ended and removes the effect, and every invocation
thereafter produces zero ticks; poison tick damage is the effect's power
clamped to current HP and regen healing is clamped to missing HP. -/
theorem status_effect_tick_lifecycle :
    (∀ (c : Combatant) (e : StatusEffect) (N : Nat),
      c.statusEffects = [e] → e.remainingTurns = (N : Int) → 1 ≤ N →
      (∀ k : Nat, k < N →
        (tickN c k).tickStatusEffects.2.map StatusTick.ended
          = [decide (k + 1 = N)]) ∧
      (∀ k : Nat, N ≤ k → (tickN c k).statusEffects = []) ∧
      (∀ k : Nat, N ≤ k → (tickN c k).tickStatusEffects.2 = [])) ∧
    (∀ (c : Combatant) (e : StatusEffect),
      c.statusEffects = [e] → e.type = StatusEffectType.poison →
      0 ≤ e.power → 0 ≤ c.hp →
      c.tickStatusEffects.2.map StatusTick.amount = [min e.power c.hp] ∧
      c.tickStatusEffects.1.hp = c.hp - min e.power c.hp) ∧
    (∀ (c : Combatant) (e : StatusEffect),
      c.statusEffects = [e] → e.type = StatusEffectType.regen →
      0 ≤ e.power → c.hp ≤ c.maxHp →
      c.tickStatusEffects.2.map StatusTick.amount
        = [min e.power (c.maxHp - c.hp)] ∧
      c.tickStatusEffects.1.hp = c.hp + min e.power (c.maxHp - c.hp)) := by
  refine ⟨?_, tick_single_poison, tick_single_regen⟩
  intro c e N h h2 h3
  refine ⟨?_, tickN_single_gone c e N h h2 h3, ?_⟩
  · intro k hk
    have hprev := tickN_single_inv c e N h h2 k hk
    rw [tick_single_ended _ _ hprev]
    congr 1
    simp only [decide_eq_decide]
    omega
  · intro k hk
    have := tickN_single_gone c e N h h2 h3 k hk
    rw [tick_empty _ this]

/-- Witness for C7: the spec's poison scenario — power 3, duration 2 on a
20-HP combatant: HP 20 → 17 → 14, the second tick flagged ended, nothing
afterwards. -/
theorem status_effect_tick_lifecycle_witness :
    (poisonVictim.statusEffects = [poisonEffect] ∧
      poisonEffect.remainingTurns = ((2 : Nat) : Int) ∧ 1 ≤ 2) ∧
    ((∀ k : Nat, k < 2 →
        (tickN poisonVictim k).tickStatusEffects.2.map StatusTick.ended
          = [decide (k + 1 = 2)]) ∧
      (∀ k : Nat, 2 ≤ k → (tickN poisonVictim k).statusEffects = []) ∧
      (∀ k : Nat, 2 ≤ k →
        (tickN poisonVictim k).tickStatusEffects.2 = [])) ∧
    (tickN poisonVictim 0).hp = 20 ∧ (tickN poisonVictim 1).hp = 17 ∧
    (tickN poisonVictim 2).hp = 14 :=
  ⟨⟨rfl, by decide, by decide⟩,
    status_effect_tick_lifecycle.1 poisonVictim poisonEffect 2 rfl
      (by decide) (by decide),
    by decide, by decide, by decide⟩

theorem resolveDamage_success (a : AbilityDef) (u t : Combatant) :
    (resolveDamage a u t).1.success = true := by
  unfold resolveDamage
  split <;> rfl

theorem resolveHeal_success (a : AbilityDef) (u t : Combatant) :
    (resolveHeal a u t).1.success = true := by
  unfold resolveHeal
  split <;> rfl

/-- C6: an ability whose MP cost exceeds the actor's current MP is
rejected by the resolver with success=false and a user-facing message and
no mutation of either combatant; on the player path the same shortfall
only sets the 'Not enough MP!' message — party, enemies, turn counter and
active-member indices are untouched, so the turn is not consumed.  Every
successful resolution deducts exactly ability.mpCost from the actor,
once. -/
theorem insufficient_mp_no_mutation_and_exact_deduction :
    (∀ (a : AbilityDef) (u t : Combatant), 0 ≤ u.mp → u.mp < a.mpCost →
      Resolve a u t =
        ({ success := false, damage := 0, healing := 0,
           statusAdded := StatusEffectType.none,
           message := u.name ++ " doesn't have enough MP!" }, u, t)) ∧
    (∀ (a : AbilityDef) (u : Combatant), 0 ≤ u.mp → u.mp < a.mpCost →
      ResolveSelf a u =
        ({ success := false, damage := 0, healing := 0,
           statusAdded := StatusEffectType.none,
           message := u.name ++ " doesn't have enough MP!" }, u)) ∧
    (∀ (reg : List AbilityDef) (perms : Nat → List Nat) (g : Game)
        (cs : CombatStateData) (i : Nat) (pm : Nat × Combatant)
        (a : AbilityDef),
      g.combatState = some cs →
      cs.phase = CombatPhase.playerTurn →
      g.getActiveMember = some pm →
      i < pm.2.abilityIds.length →
      getByID reg (pm.2.abilityIds.getD i "") = some a →
      pm.2.mp < a.mpCost →
      handleCombatAbilitySelection reg perms g i =
        g.setCS { cs with lastMessage := "Not enough MP!" }) ∧
    (∀ (a : AbilityDef) (u t : Combatant), 0 ≤ a.mpCost →
      (Resolve a u t).1.success = true →
      (Resolve a u t).2.1.mp = u.mp - a.mpCost) ∧
    (∀ (a : AbilityDef) (u : Combatant), 0 ≤ a.mpCost →
      (ResolveSelf a u).1.success = true →
      (ResolveSelf a u).2.mp = u.mp - a.mpCost) := by
  refine ⟨?_, ?_, ?_, ?_, ?_⟩
  · intro a u t h0 hlt
    unfold Resolve
    rw [if_pos ⟨by omega, hlt⟩]
  · intro a u h0 hlt
    unfold ResolveSelf
    rw [if_pos ⟨by omega, hlt⟩]
  · intro reg perms g cs i pm a hcs hphase hactive hlen hreg hlt
    unfold handleCombatAbilitySelection
    rw [hcs]
    dsimp only
    rw [if_neg (by simp [hphase]), hactive]
    dsimp only
    rw [if_neg (by omega), hreg]
    dsimp only
    rw [if_pos hlt]
  · intro a u t h0 hs
    by_cases hg : a.mpCost > 0 ∧ u.mp < a.mpCost
    · exfalso
      simp only [Resolve, if_pos hg] at hs
      exact absurd hs (by simp)
    · have hu1 : (if a.mpCost > 0 then (u.spendMP a.mpCost).1 else u).mp =
          u.mp - a.mpCost := by
        split
        · apply spendMP_mp_of_le
          omega
        · have : a.mpCost = 0 := by omega
          rw [this]
          omega
      simp only [Resolve, if_neg hg]
      cases hET : a.effectType <;> dsimp only <;> exact hu1
  · intro a u h0 hs
    by_cases hg : a.mpCost > 0 ∧ u.mp < a.mpCost
    · exfalso
      simp only [ResolveSelf, if_pos hg] at hs
      exact absurd hs (by simp)
    · have hu1 : (if a.mpCost > 0 then (u.spendMP a.mpCost).1 else u).mp =
          u.mp - a.mpCost := by
        split
        · apply spendMP_mp_of_le
          omega
        · have : a.mpCost = 0 := by omega
          rw [this]
          omega
      simp only [ResolveSelf, if_neg hg]
      cases hET : a.effectType <;> dsimp only
      · rw [resolveDamage_target_mp]
        exact hu1
      · rw [resolveHeal_target_mp]
        exact hu1
      · rw [resolveStatusEffect_target_mp]
        exact hu1
      · rw [resolveStatusEffect_target_mp]
        exact hu1
      · exact hu1

/-- Witness for C6: a 5-MP fireball cast by a 0-MP wizard is rejected
without mutation, the player path only sets the message, and an
affordable cast deducts exactly the cost. -/
theorem insufficient_mp_no_mutation_witness :
    (0 ≤ manalessEnemy.mp ∧ manalessEnemy.mp < bigSpell.mpCost) ∧
    Resolve bigSpell manalessEnemy warrior8 =
      ({ success := false, damage := 0, healing := 0,
         statusAdded := StatusEffectType.none,
         message := manalessEnemy.name ++ " doesn't have enough MP!" },
        manalessEnemy, warrior8) ∧
    ResolveSelf bigSpell manalessEnemy =
      ({ success := false, damage := 0, healing := 0,
         statusAdded := StatusEffectType.none,
         message := manalessEnemy.name ++ " doesn't have enough MP!" },
        manalessEnemy) ∧
    (0 ≤ atkAbility.mpCost ∧
      (Resolve atkAbility warrior8 target3).1.success = true ∧
      (Resolve atkAbility warrior8 target3).2.1.mp =
        warrior8.mp - atkAbility.mpCost) :=
  ⟨⟨by decide, by decide⟩,
    insufficient_mp_no_mutation_and_exact_deduction.1 bigSpell manalessEnemy
      warrior8 (by decide) (by decide),
    insufficient_mp_no_mutation_and_exact_deduction.2.1 bigSpell manalessEnemy
      (by decide) (by decide),
    by decide, by decide,
    insufficient_mp_no_mutation_and_exact_deduction.2.2.2.1 atkAbility
      warrior8 target3 (by decide) (by decide)⟩

/-- C10 counterexample: an enemy with 0 MP whose only listed ability
costs 5 MP — the AI fallback selects that ability anyway, and resolving
it fails for lack of MP, so the insufficient-MP failure is reachable on
the AI path. -/
theorem ai_fallback_can_be_unaffordable :
    selectEnemyAbility [bigSpell] manalessEnemy [0] = some bigSpell ∧
    ¬(bigSpell.mpCost ≤ manalessEnemy.mp) ∧
    (Resolve bigSpell manalessEnemy warrior8).1.success = false ∧
    (Resolve bigSpell manalessEnemy warrior8).1.message =
      manalessEnemy.name ++ " doesn't have enough MP!" := by
  refine ⟨by decide, by decide, by decide, by decide⟩

/-- C10 amended: the shuffled affordable-search only ever returns an
affordable ability, so the AI never resolves an unaffordable ability
whenever the fallback — the enemy's first listed ability, by convention a
zero-cost attack — is itself affordable; an affordable damage or heal
ability then always resolves successfully. -/
theorem ai_selection_affordable_when_fallback_affordable :
    (∀ (reg : List AbilityDef) (enemy : Combatant) (perm : List Nat)
        (a : AbilityDef),
      findUsableLoop reg enemy perm = some a → a.mpCost ≤ enemy.mp) ∧
    (∀ (reg : List AbilityDef) (enemy : Combatant) (perm : List Nat)
        (a b : AbilityDef),
      selectEnemyAbility reg enemy perm = some a →
      getByID reg (enemy.abilityIds.getD 0 "") = some b →
      b.mpCost ≤ enemy.mp →
      a.mpCost ≤ enemy.mp) ∧
    (∀ (a : AbilityDef) (u t : Combatant),
      a.mpCost ≤ u.mp →
      (a.effectType = EffectType.damage ∨ a.effectType = EffectType.heal) →
      (Resolve a u t).1.success = true) := by
  have part1 : ∀ (reg : List AbilityDef) (enemy : Combatant)
      (perm : List Nat) (a : AbilityDef),
      findUsableLoop reg enemy perm = some a → a.mpCost ≤ enemy.mp := by
    intro reg enemy perm
    induction perm with
    | nil =>
      intro a h
      simp [findUsableLoop] at h
    | cons idx rest ih =>
      intro a h
      unfold findUsableLoop at h
      cases hg : getByID reg (enemy.abilityIds.getD idx "") with
      | none =>
        rw [hg] at h
        exact ih a h
      | some b =>
        rw [hg] at h
        dsimp only at h
        by_cases hb : enemy.mp ≥ b.mpCost
        · rw [if_pos hb] at h
          cases h
          omega
        · rw [if_neg hb] at h
          exact ih a h
  refine ⟨part1, ?_, ?_⟩
  · intro reg enemy perm a b hsel hb hbAfford
    unfold selectEnemyAbility at hsel
    split at hsel
    · cases hsel
    · cases hfind : findUsableLoop reg enemy perm with
      | some c =>
        rw [hfind] at hsel
        cases hsel
        exact part1 reg enemy perm _ hfind
      | none =>
        rw [hfind] at hsel
        rw [hb] at hsel
        cases hsel
        exact hbAfford
  · intro a u t hAfford hKind
    have hgate : ¬(a.mpCost > 0 ∧ u.mp < a.mpCost) := by omega
    rcases hKind with h | h <;> simp only [Resolve, if_neg hgate, h]
    · exact resolveDamage_success a _ t
    · exact resolveHeal_success a _ t

/-- Witness for C10 amended: a zero-cost attack known by a 0-MP goblin is
found by the shuffled search, is affordable, and resolves successfully. -/
theorem ai_selection_affordable_witness :
    findUsableLoop [atkAbility] goblinEnemy [0] = some atkAbility ∧
    atkAbility.mpCost ≤ goblinEnemy.mp ∧
    selectEnemyAbility [atkAbility] goblinEnemy [0] = some atkAbility ∧
    getByID [atkAbility] (goblinEnemy.abilityIds.getD 0 "") =
      some atkAbility ∧
    (Resolve atkAbility goblinEnemy warrior8).1.success = true :=
  ⟨by decide,
    ai_selection_affordable_when_fallback_affordable.1 [atkAbility]
      goblinEnemy [0] atkAbility (by decide),
    by decide, by decide,
    ai_selection_affordable_when_fallback_affordable.2.2 atkAbility
      goblinEnemy warrior8 (by decide) (Or.inl rfl)⟩

theorem setCS_activeIdx (g : Game) (cs : CombatStateData) :
    (g.setCS cs).activeMemberIndex = g.activeMemberIndex := rfl

theorem setUnit_activeIdx (g : Game) (r : UnitRef) (c : Combatant) :
    (g.setUnit r c).activeMemberIndex = g.activeMemberIndex := by
  unfold Game.setUnit
  cases r
  · rfl
  · cases g.combatState <;> rfl

theorem executeCombatTurn_activeIdx (g : Game) (a : AbilityDef)
    (actor target : UnitRef) :
    (executeCombatTurn g a actor target).activeMemberIndex =
      g.activeMemberIndex := by
  unfold executeCombatTurn
  cases g.getUnit actor with
  | none => rfl
  | some au =>
    cases g.getUnit target with
    | none => rfl
    | some tu =>
      dsimp only
      by_cases h : actor = target <;> simp only [if_pos, if_neg, h, ite_true,
        ite_false, reduceIte]
      · have hp : (g.setUnit target (ResolveSelf a au).2).activeMemberIndex =
            g.activeMemberIndex := setUnit_activeIdx g target _
        generalize hG : g.setUnit target (ResolveSelf a au).2 = g1 at hp ⊢
        cases g1.combatState <;> simp [setCS_activeIdx, hp]
      · have hp : ((g.setUnit actor (Resolve a au tu).2.1).setUnit target
            (Resolve a au tu).2.2).activeMemberIndex = g.activeMemberIndex :=
          (setUnit_activeIdx _ target _).trans (setUnit_activeIdx g actor _)
        generalize hG : (g.setUnit actor (Resolve a au tu).2.1).setUnit target
            (Resolve a au tu).2.2 = g1 at hp ⊢
        cases g1.combatState <;> simp [setCS_activeIdx, hp]

theorem checkCombatEnd_activeIdx (g : Game) :
    (checkCombatEnd g).1.activeMemberIndex = g.activeMemberIndex := by
  unfold checkCombatEnd
  cases g.combatState
  · rfl
  · dsimp only
    split
    · rfl
    · split <;> rfl

theorem advance_activeIdx (g : Game) :
    (advanceToNextPartyMember g).activeMemberIndex = g.activeMemberIndex := by
  unfold advanceToNextPartyMember
  cases g.combatState
  · rfl
  · dsimp only
    split <;> rfl

theorem executeEnemyTurnsFrom_activeIdx (reg : List AbilityDef)
    (perms : Nat → List Nat) :
    ∀ (fuel : Nat) (g : Game) (pos : Nat),
      (executeEnemyTurnsFrom reg perms g pos fuel).1.activeMemberIndex =
        g.activeMemberIndex := by
  intro fuel
  induction fuel with
  | zero => intro g pos; rfl
  | succ r ih =>
    intro g pos
    unfold executeEnemyTurnsFrom
    cases hcs : g.combatState with
    | none => rfl
    | some cs =>
      dsimp only
      cases hen : cs.enemies.get? pos with
      | none => rfl
      | some enemy =>
        dsimp only
        split
        · exact ih g (pos + 1)
        · have hg1 : (match selectEnemyAbility reg enemy (perms pos) with
              | some a =>
                (match selectEnemyTarget g pos a with
                 | some t => executeCombatTurn g a (UnitRef.enemy pos) t
                 | none => g)
              | none => g).activeMemberIndex = g.activeMemberIndex := by
            cases selectEnemyAbility reg enemy (perms pos) with
            | none => rfl
            | some a =>
              dsimp only
              cases selectEnemyTarget g pos a with
              | none => rfl
              | some t =>
                dsimp only
                exact executeCombatTurn_activeIdx g a _ t
          split
          · generalize hG : (match selectEnemyAbility reg enemy (perms pos) with
              | some a =>
                (match selectEnemyTarget g pos a with
                 | some t => executeCombatTurn g a (UnitRef.enemy pos) t
                 | none => g)
              | none => g) = g1 at hg1 ⊢
            cases g1.combatState <;> simp [setCS_activeIdx, hg1]
          · generalize hG : (match selectEnemyAbility reg enemy (perms pos) with
              | some a =>
                (match selectEnemyTarget g pos a with
                 | some t => executeCombatTurn g a (UnitRef.enemy pos) t
                 | none => g)
              | none => g) = g1 at hg1 ⊢
            exact (ih g1 (pos + 1)).trans hg1

theorem executeEnemyTurns_activeIdx (reg : List AbilityDef)
    (perms : Nat → List Nat) (g : Game) :
    (executeEnemyTurns reg perms g).activeMemberIndex =
      g.activeMemberIndex := by
  unfold executeEnemyTurns
  dsimp only
  have hswept := executeEnemyTurnsFrom_activeIdx reg perms
    (match g.combatState with
      | some cs => cs.enemies.length
      | none => 0) g 0
  generalize hG : executeEnemyTurnsFrom reg perms g 0
      (match g.combatState with
        | some cs => cs.enemies.length
        | none => 0) = swept at hswept ⊢
  split
  · exact hswept
  · cases swept.1.combatState <;> dsimp only
    · exact hswept
    · split
      · exact hswept
      · split <;> simp [setCS_activeIdx, hswept]

theorem handleSelection_activeIdx (reg : List AbilityDef)
    (perms : Nat → List Nat) (g : Game) (i : Nat) :
    (handleCombatAbilitySelection reg perms g i).activeMemberIndex =
      g.activeMemberIndex := by
  unfold handleCombatAbilitySelection
  cases hcs : g.combatState with
  | none => rfl
  | some cs =>
    dsimp only
    split
    · rfl
    · cases hact : g.getActiveMember with
      | none => rfl
      | some mem =>
        dsimp only
        split
        · rfl
        · cases hreg : getByID reg (mem.2.abilityIds.getD i "") with
          | none => rfl
          | some ability =>
            dsimp only
            split
            · rfl
            · cases htgt : (if ability.IsOffensive then
                  (firstAliveIdxLoop cs.enemies 0).map UnitRef.enemy
                else some (UnitRef.member mem.1)) with
              | none => rfl
              | some target =>
                dsimp only
                have h1 := executeCombatTurn_activeIdx g ability
                  (UnitRef.member mem.1) target
                generalize hG1 : executeCombatTurn g ability
                  (UnitRef.member mem.1) target = g1 at h1 ⊢
                have h2 := checkCombatEnd_activeIdx g1
                generalize hG2 : checkCombatEnd g1 = ce at h2 ⊢
                split
                · exact h2.trans h1
                · have h3 := advance_activeIdx ce.1
                  generalize hG3 : advanceToNextPartyMember ce.1 = g3 at h3 ⊢
                  have hchain : g3.activeMemberIndex = g.activeMemberIndex :=
                    h3.trans (h2.trans h1)
                  cases g3.combatState <;> dsimp only
                  · exact hchain
                  · split
                    · exact (executeEnemyTurns_activeIdx reg perms g3).trans
                        hchain
                    · exact hchain

theorem getAliveMemberWithPosLoop_zero (members : List Combatant) :
    ∀ p : Nat, getAliveMemberWithPosLoop members 0 p =
      (firstAliveMemberSpec members).map (fun q => (q.1 + p, q.2)) := by
  induction members with
  | nil => intro p; rfl
  | cons m rest ih =>
    intro p
    unfold getAliveMemberWithPosLoop firstAliveMemberSpec
    split
    · simp
    · rw [ih (p + 1)]
      cases h : firstAliveMemberSpec rest <;> simp
      omega

/-- C8: the party member that acts on every player ability selection is
always the first living party member — entering combat resets
`Game.activeMemberIndex` to 0, no player action (including the nested
enemy sweep) ever changes it, and `getActiveMember` at index 0 is exactly
the first living member; the turn order advances only
`CombatState.ActiveMemberIndex`, which `getActiveMember` never consults. -/
theorem player_actor_always_first_alive :
    (∀ (g : Game) (f : Combatant → Bool),
      (enterCombat g f).activeMemberIndex = 0) ∧
    (∀ (reg : List AbilityDef) (perms : Nat → List Nat) (g : Game) (i : Nat),
      (handleCombatAbilitySelection reg perms g i).activeMemberIndex =
        g.activeMemberIndex) ∧
    (∀ g : Game, g.activeMemberIndex = 0 →
      g.getActiveMember = firstAliveMemberSpec g.party) := by
  refine ⟨fun g f => rfl, handleSelection_activeIdx, ?_⟩
  intro g h0
  unfold Game.getActiveMember getAliveMemberWithPos
  rw [h0, getAliveMemberWithPosLoop_zero g.party 0]
  cases h : firstAliveMemberSpec g.party <;> simp

/-- Witness for C8: in the concrete combat game the actor is the first
(and only) living member at party position 0, and a full player action
leaves `Game.activeMemberIndex` at 0. -/
theorem player_actor_always_first_alive_witness :
    (enterCombat exploreGame0 allScope).activeMemberIndex = 0 ∧
    (handleCombatAbilitySelection [atkAbility] permZero combatGame0
        0).activeMemberIndex = combatGame0.activeMemberIndex ∧
    combatGame0.activeMemberIndex = 0 ∧
    combatGame0.getActiveMember = firstAliveMemberSpec combatGame0.party ∧
    combatGame0.getActiveMember = some (0, poisonedMember) :=
  ⟨player_actor_always_first_alive.1 exploreGame0 allScope,
    player_actor_always_first_alive.2.1 [atkAbility] permZero combatGame0 0,
    rfl,
    player_actor_always_first_alive.2.2 combatGame0 rfl,
    by decide⟩

/-- C3: evidence that the turn engine never ticks status effects.  After
one complete combat round from `combatGame0` (player action, enemy sweep,
new round begins: phase is back to playerTurn with turn counter 2), the
poisoned member still carries the poison with remaining_turns = 2 and has
lost HP only to the enemy's attack (20 → 16); had `TickStatusEffects`
been invoked once, the poison would have 1 remaining turn and HP 13. -/
theorem round_never_ticks_status_effects :
    roundResult.combatState.map CombatStateData.phase =
      some CombatPhase.playerTurn ∧
    roundResult.combatState.map CombatStateData.turnCount = some 2 ∧
    roundResult.party.map Combatant.statusEffects = [[poisonEffect]] ∧
    roundResult.party.map Combatant.hp = [16] ∧
    roundResult.party.head?.map
        (fun m => m.tickStatusEffects.1.statusEffects) =
      some [⟨StatusEffectType.poison, 1, 3⟩] ∧
    roundResult.party.head?.map (fun m => m.tickStatusEffects.1.hp) =
      some 13 := by
  refine ⟨by decide, by decide, by decide, by decide, by decide, by decide⟩

/-- C4 counterexample: starting from explore mode with no CombatState,
entering combat and then leaving it (manual flee) leaves the game in
Explore mode with the stale CombatState still present — `exitCombat`
clears only `combatEnemies` and `activeMemberIndex`, so "CombatState
exists iff mode is Combat" fails after the first encounter. -/
theorem combatState_persists_after_exit :
    exploreGame0.mode = Mode.explore ∧
    exploreGame0.combatState = none ∧
    (runTransitions exploreGame0
      [(Mode.combat, allScope), (Mode.explore, allScope)]).mode =
        Mode.explore ∧
    (runTransitions exploreGame0
        [(Mode.combat, allScope), (Mode.explore, allScope)]).combatState.isSome
      = true := by
  refine ⟨rfl, rfl, rfl, rfl⟩

/-- C4 amended: one direction of the claimed invariant holds for every
transition sequence — whenever the mode is Combat a CombatState exists
(it is created by the Explore→Combat transition); but the Combat→Explore
transition does not discard it: the CombatState survives the transition,
so after the first combat a stale CombatState persists in Explore mode. -/
theorem combatState_mode_forward_invariant :
    (∀ (g : Game) (steps : List (Mode × (Combatant → Bool))),
      (g.mode = Mode.combat → g.combatState.isSome = true) →
      ((runTransitions g steps).mode = Mode.combat →
        (runTransitions g steps).combatState.isSome = true)) ∧
    (∀ (g : Game) (f : Combatant → Bool),
      g.mode = Mode.combat → g.combatState.isSome = true →
      (transitionState g Mode.explore f).mode = Mode.explore ∧
      (transitionState g Mode.explore f).combatState.isSome = true) := by
  have hstep : ∀ (g : Game) (s : Mode × (Combatant → Bool)),
      (g.mode = Mode.combat → g.combatState.isSome = true) →
      ((transitionState g s.1 s.2).mode = Mode.combat →
        (transitionState g s.1 s.2).combatState.isSome = true) := by
    intro g s hInv
    unfold transitionState
    split
    · exact hInv
    · dsimp only
      split
      · intro _
        rfl
      · split
        · intro h
          exact absurd h (by assumption)
        · intro h
          exact absurd h (by assumption)
  constructor
  · intro g steps
    induction steps generalizing g with
    | nil => intro hInv; exact hInv
    | cons s rest ih =>
      intro hInv
      exact ih (transitionState g s.1 s.2) (hstep g s hInv)
  · intro g f hmode hsome
    unfold transitionState
    rw [if_neg (by simp [hmode]), if_neg (by decide), if_pos hmode]
    exact ⟨rfl, hsome⟩

/-- Witness for C4 amended: the forward invariant evaluated on the
enter-then-flee sequence, and the stale CombatState after fleeing
`combatGame0`. -/
theorem combatState_mode_forward_invariant_witness :
    (exploreGame0.mode = Mode.combat →
      exploreGame0.combatState.isSome = true) ∧
    ((runTransitions exploreGame0
        [(Mode.combat, allScope), (Mode.explore, allScope)]).mode =
          Mode.combat →
      (runTransitions exploreGame0
        [(Mode.combat, allScope),
          (Mode.explore, allScope)]).combatState.isSome = true) ∧
    (combatGame0.mode = Mode.combat ∧ combatGame0.combatState.isSome = true) ∧
    ((transitionState combatGame0 Mode.explore allScope).mode =
        Mode.explore ∧
      (transitionState combatGame0 Mode.explore allScope).combatState.isSome
        = true) := by
  have h1 : exploreGame0.mode = Mode.combat →
      exploreGame0.combatState.isSome = true := by
    intro h
    exact absurd h (by decide)
  exact ⟨h1,
    combatState_mode_forward_invariant.1 exploreGame0
      [(Mode.combat, allScope), (Mode.explore, allScope)] h1,
    ⟨rfl, rfl⟩,
    combatState_mode_forward_invariant.2 combatGame0 allScope rfl rfl⟩

theorem lineDirLoop_filter (passable : Pos → Bool) (cx cy : Int)
    (count : Nat) (radius : Int) :
    ∀ (dirs : List Pos) (acc : List Pos),
      acc.length < count →
      (∀ d ∈ dirs, ((cx + d.1 * radius, cy + d.2 * radius) : Pos) ∉ acc) →
      (dirs.map (fun d => ((cx + d.1 * radius, cy + d.2 * radius) : Pos))).Nodup →
      lineDirLoop passable cx cy count radius dirs acc =
        acc ++ ((dirs.map
            (fun d => ((cx + d.1 * radius, cy + d.2 * radius) : Pos))).filter
          passable).take (count - acc.length) := by
  intro dirs
  induction dirs with
  | nil =>
    intro acc _ _ _
    simp [lineDirLoop]
  | cons d rest ih =>
    intro acc hlen hdisj hnodup
    have hmem : ((cx + d.1 * radius, cy + d.2 * radius) : Pos) ∉ acc :=
      hdisj d (List.mem_cons_self d rest)
    have hcontains : acc.contains ((cx + d.1 * radius, cy + d.2 * radius) : Pos)
        = false := by
      rw [← Bool.not_eq_true]
      intro hc
      exact hmem (List.elem_iff.mp hc)
    have hdisjRest : ∀ d' ∈ rest,
        ((cx + d'.1 * radius, cy + d'.2 * radius) : Pos) ∉ acc :=
      fun d' hd' => hdisj d' (List.mem_cons_of_mem d hd')
    have hnodupRest := (List.nodup_cons.mp hnodup).2
    have hheadNotRest := (List.nodup_cons.mp hnodup).1
    unfold lineDirLoop
    rw [List.map_cons, List.filter_cons]
    simp only [hcontains, Bool.not_false, Bool.true_and]
    by_cases hpass :
        passable ((cx + d.1 * radius, cy + d.2 * radius) : Pos) = true
    · rw [if_pos hpass, if_pos hpass]
      by_cases hfull : count ≤
          (acc ++ [((cx + d.1 * radius, cy + d.2 * radius) : Pos)]).length
      · rw [if_pos hfull]
        have hfull' : count ≤ acc.length + 1 := by
          simpa using hfull
        have heq : count - acc.length = 1 := by omega
        rw [heq, List.take_succ_cons, List.take_zero]
      · rw [if_neg hfull]
        have hfull' : ¬ count ≤ acc.length + 1 := by
          simpa using hfull
        have hlen' :
            (acc ++ [((cx + d.1 * radius, cy + d.2 * radius) : Pos)]).length <
              count := by
          simp only [List.length_append, List.length_singleton]
          omega
        have hdisj' : ∀ d' ∈ rest,
            ((cx + d'.1 * radius, cy + d'.2 * radius) : Pos) ∉
              acc ++ [((cx + d.1 * radius, cy + d.2 * radius) : Pos)] := by
          intro d' hd' hmem'
          rcases List.mem_append.mp hmem' with h | h
          · exact hdisjRest d' hd' h
          · rw [List.mem_singleton] at h
            refine hheadNotRest ?_
            dsimp only
            rw [← h]
            exact List.mem_map_of_mem
              (fun d'' => ((cx + d''.1 * radius, cy + d''.2 * radius) : Pos))
              hd'
        rw [ih _ hlen' hdisj' hnodupRest]
        have harith : count - acc.length =
            (count -
              (acc ++ [((cx + d.1 * radius,
                cy + d.2 * radius) : Pos)]).length) + 1 := by
          simp only [List.length_append, List.length_singleton]
          omega
        rw [harith, List.take_succ_cons, List.append_assoc,
          List.singleton_append]
    · rw [if_neg hpass, if_neg hpass]
      exact ih acc hlen hdisjRest hnodupRest

theorem lineRadiusLoop_filter (passable : Pos → Bool) (cx cy : Int)
    (count : Nat) :
    ∀ (rs : List Int) (acc : List Pos),
      (rs.flatMap (fun r => lineDirections.map
        (fun d => ((cx + d.1 * r, cy + d.2 * r) : Pos)))).Nodup →
      (∀ p ∈ rs.flatMap (fun r => lineDirections.map
        (fun d => ((cx + d.1 * r, cy + d.2 * r) : Pos))), p ∉ acc) →
      lineRadiusLoop passable cx cy count rs acc =
        acc ++ ((rs.flatMap (fun r => lineDirections.map
            (fun d => ((cx + d.1 * r, cy + d.2 * r) : Pos)))).filter
          passable).take (count - acc.length) := by
  intro rs
  induction rs with
  | nil =>
    intro acc _ _
    simp [lineRadiusLoop]
  | cons r rest ih =>
    intro acc hnodup hdisj
    rw [List.flatMap_cons] at hnodup hdisj ⊢
    have hnd := List.nodup_append.mp hnodup
    unfold lineRadiusLoop
    by_cases hfull : count ≤ acc.length
    · rw [if_pos hfull]
      have hz : count - acc.length = 0 := by omega
      rw [hz, List.take_zero, List.append_nil]
    · rw [if_neg hfull]
      rw [lineDirLoop_filter passable cx cy count r lineDirections acc
        (by omega)
        (fun d hd => hdisj _ (List.mem_append_left _
          (List.mem_map_of_mem _ hd)))
        hnd.1]
      have hTsub : ∀ p ∈ ((lineDirections.map
          (fun d => ((cx + d.1 * r, cy + d.2 * r) : Pos))).filter
            passable).take (count - acc.length),
          p ∈ lineDirections.map
            (fun d => ((cx + d.1 * r, cy + d.2 * r) : Pos)) :=
        fun p hp => List.mem_of_mem_filter (List.mem_of_mem_take hp)
      have hdisj' : ∀ p ∈ rest.flatMap (fun r' => lineDirections.map
          (fun d => ((cx + d.1 * r', cy + d.2 * r') : Pos))),
          p ∉ acc ++ ((lineDirections.map
            (fun d => ((cx + d.1 * r, cy + d.2 * r) : Pos))).filter
              passable).take (count - acc.length) := by
        intro p hp hmem
        rcases List.mem_append.mp hmem with h | h
        · exact hdisj p (List.mem_append_right _ hp) h
        · exact hnd.2.2 (hTsub p h) hp
      rw [ih _ hnd.2.1 hdisj']
      rw [List.filter_append, List.take_append_eq_append_take,
        ← List.append_assoc]
      congr 1
      have hTlen : (((lineDirections.map
          (fun d => ((cx + d.1 * r, cy + d.2 * r) : Pos))).filter
            passable).take (count - acc.length)).length =
          min (count - acc.length) ((lineDirections.map
            (fun d => ((cx + d.1 * r, cy + d.2 * r) : Pos))).filter
              passable).length := List.length_take _ _
      congr 1
      simp only [List.length_append, hTlen]
      omega

theorem lineCandidates_tail_shift (cx cy : Int) :
    ([1, 2, 3] : List Int).flatMap (fun r => lineDirections.map
        (fun d => ((cx + d.1 * r, cy + d.2 * r) : Pos))) =
      (([1, 2, 3] : List Int).flatMap (fun r => lineDirections.map
        (fun d => ((d.1 * r, d.2 * r) : Pos)))).map
          (fun o => ((cx + o.1, cy + o.2) : Pos)) := by
  rw [List.map_flatMap]
  simp [List.map_map, Function.comp_def]

theorem shift_injective (cx cy : Int) :
    Function.Injective (fun o : Pos => ((cx + o.1, cy + o.2) : Pos)) := by
  intro a b h
  simp only [Prod.mk.injEq] at h
  have h1 : a.1 = b.1 := by omega
  have h2 : a.2 = b.2 := by omega
  exact Prod.ext h1 h2

theorem rayCandidates_nodup (cx cy : Int) :
    (([1, 2, 3] : List Int).flatMap (fun r => lineDirections.map
        (fun d => ((cx + d.1 * r, cy + d.2 * r) : Pos)))).Nodup := by
  rw [lineCandidates_tail_shift]
  exact List.Nodup.map (shift_injective cx cy) (by decide)

theorem center_not_ray (cx cy : Int) :
    ((cx, cy) : Pos) ∉ ([1, 2, 3] : List Int).flatMap
      (fun r => lineDirections.map
        (fun d => ((cx + d.1 * r, cy + d.2 * r) : Pos))) := by
  rw [lineCandidates_tail_shift]
  intro hmem
  obtain ⟨o, ho, heq⟩ := List.mem_map.mp hmem
  have h00 : (fun o : Pos => ((cx + o.1, cy + o.2) : Pos)) ((0, 0) : Pos) =
      ((cx, cy) : Pos) := by
    simp
  have h0 : o = ((0, 0) : Pos) := shift_injective cx cy (heq.trans h00.symm)
  rw [h0] at ho
  exact absurd ho (by decide)

/-- C5 counterexample: center (0,0), count 4, with exactly 3 of the 4
preferred 2x2 tiles passable — the primary pattern collects
[(0,0), (-1,1), (0,1)], but the final result is rebuilt from scratch by
ring expansion and omits the primary position (-1,1) even though a 4th
passable tile exists within radius 3. -/
theorem formation_fallback_drops_primary_positions :
    formationLoop passableCross 0 0 4 offsets2x2 [] =
      [((0 : Int), (0 : Int)), ((-1 : Int), (1 : Int)),
        ((0 : Int), (1 : Int))] ∧
    (formationLoop passableCross 0 0 4 offsets2x2 []).length = 3 ∧
    findFormationPositions passableCross 0 0 4 =
      [((0 : Int), (0 : Int)), ((0 : Int), (-1 : Int)),
        ((0 : Int), (1 : Int)), ((1 : Int), (0 : Int))] ∧
    ((-1 : Int), (1 : Int)) ∉ findFormationPositions passableCross 0 0 4 := by
  refine ⟨by decide, by decide, by decide, by decide⟩

/-- C5 amended: when the primary 2x2 pattern yields fewer than `count`
passable positions, those positions are discarded and the whole list is
rebuilt by `findLineFormation`: the first `count` passable tiles of the
candidate stream made of the center tile followed by the eight direction
rays (cardinals before diagonals) at radius 1, 2, 3. -/
theorem formation_fallback_rebuilds_by_rings (passable : Pos → Bool)
    (cx cy : Int) (count : Nat) (hcount : 1 ≤ count)
    (hshort : (formationLoop passable cx cy count offsets2x2 []).length <
      count) :
    findFormationPositions passable cx cy count =
      ((lineCandidates cx cy).filter passable).take count := by
  unfold findFormationPositions
  rw [if_neg (by omega)]
  unfold findLineFormation lineCandidates
  rw [List.filter_cons]
  have hmain := lineRadiusLoop_filter passable cx cy count [1, 2, 3]
  by_cases hc : passable ((cx, cy) : Pos) = true
  · rw [if_pos hc, if_pos hc, hmain [((cx, cy) : Pos)]
      (rayCandidates_nodup cx cy)
      (by
        intro p hp hmem
        rw [List.mem_singleton] at hmem
        exact center_not_ray cx cy (hmem ▸ hp))]
    have hsplit : count = (count - 1) + 1 := by omega
    conv_rhs => rw [hsplit, List.take_succ_cons]
    simp
  · rw [if_neg hc, if_neg hc,
      hmain [] (rayCandidates_nodup cx cy) (by intro p _ hmem; cases hmem)]
    simp

/-- Witness for C5 amended: the counterexample scenario — the fallback
result equals the first 4 passable ray-stream tiles. -/
theorem formation_fallback_rebuilds_by_rings_witness :
    (1 ≤ 4 ∧ (formationLoop passableCross 0 0 4 offsets2x2 []).length < 4) ∧
    findFormationPositions passableCross 0 0 4 =
      ((lineCandidates 0 0).filter passableCross).take 4 :=
  ⟨⟨by decide, by decide⟩,
    formation_fallback_rebuilds_by_rings passableCross 0 0 4 (by decide)
      (by decide)⟩

end DungeonBand
